import Mathlib

/-!
Verification development for the Queens puzzle repository.

The rule engine lives in src/game.py (class Queens): the board is an n x n
numpy array holding 0 (empty), 1 (queen) or -1 (cross); the four placement
checks are is_queen_same_row / is_queen_same_column / is_queen_same_color_zone /
is_queen_same_corner, combined by is_queen_correct; the interactive run loop
mutates the grid on left clicks (place / remove a queen) and right clicks
(toggle a cross), counts valid queens in n_valid_queens and declares the game
solved when n_valid_queens == n.  The generator lives in
src/generate/generate_n_queens.py (solve_n_queens, a CP-SAT model) and
src/generator/generate_color_zones.py (generate_color_zones).

The embedding below follows the Python source.  Fallible Python expressions
(numpy indexing that can raise IndexError, dict lookup that can raise
KeyError) are modelled with Option: a `none` result is a raised exception.
-/

namespace QueensGame

/-- Resolution of a numpy index on an axis of length `len`: indices in
`[0, len)` are used as-is, indices in `[-len, 0)` wrap to `len + i`,
anything else raises IndexError (`none`). -/
def npIdx (len : Nat) (i : Int) : Option Nat :=
  if 0 ≤ i ∧ i < (len : Int) then some i.toNat
  else if -(len : Int) ≤ i ∧ i < 0 then some ((len : Int) + i).toNat
  else none

/-- Read a list at a (possibly negative, numpy-style) index. -/
def listGetI {α : Type} (l : List α) (i : Int) : Option α :=
  (npIdx l.length i).bind (fun j => l.get? j)

/-- Write a list at a (possibly negative, numpy-style) index. -/
def listSetI {α : Type} (l : List α) (i : Int) (v : α) : Option (List α) :=
  (npIdx l.length i).map (fun j => l.set j v)

/-- The board `self.grid`: a list of rows of integers
(0 empty, 1 queen, -1 cross), created as `np.zeros((n, n))`. -/
abbrev Grid := List (List Int)

/-- Python `self.grid[x][y]` (numpy read, both axes wrap negative indices). -/
def gridGet (g : Grid) (x y : Int) : Option Int :=
  (listGetI g x).bind (fun row => listGetI row y)

/-- Python `self.grid[x][y] = v` (numpy write through a row view). -/
def gridSet (g : Grid) (x y : Int) (v : Int) : Option Grid :=
  (npIdx g.length x).bind (fun ix =>
    ((g.get? ix).bind (fun row => listSetI row y v)).map (fun row2 => g.set ix row2))

/-- One entry of `self.color_zones` (a game-config zone record
`{"color": ..., "x": [...], "y": [...]}`); colors are opaque identifiers. -/
structure ColorZone where
  color : Nat
  xs : List Int
  ys : List Int
deriving DecidableEq

/-- The mutable state of the Queens object that the game logic touches:
`self.n`, `self.grid`, `self.color_zones`, `self.color_zone_queens`
and the run-loop counter `n_valid_queens`. -/
structure GameState where
  n : Nat
  grid : Grid
  color_zones : List ColorZone
  color_zone_queens : List (Option Nat × Int × Int)
  n_valid_queens : Int
deriving DecidableEq

/-- Python `key in self.color_zone_queens.keys()`. -/
def dictMem (k : Option Nat) (d : List (Option Nat × Int × Int)) : Bool :=
  d.any (fun p => p.1 == k)

/-- Python `self.color_zone_queens[key] = (x, y)` (insert or overwrite). -/
def dictInsert (k : Option Nat) (xy : Int × Int)
    (d : List (Option Nat × Int × Int)) : List (Option Nat × Int × Int) :=
  if dictMem k d then d.map (fun p => if p.1 == k then (k, xy.1, xy.2) else p)
  else d ++ [(k, xy.1, xy.2)]

/-- Python `del self.color_zone_queens[key]`. -/
def dictDel (k : Option Nat) (d : List (Option Nat × Int × Int)) :
    List (Option Nat × Int × Int) :=
  d.filter (fun p => !(p.1 == k))

/-- Embeds `is_queen_same_column(x)` from src/game.py:
`self.grid[x].sum() == 1` (note: crosses count as -1 in the sum). -/
def is_queen_same_column (s : GameState) (x : Int) : Option Bool :=
  (listGetI s.grid x).map (fun row => row.sum == 1)

/-- Embeds `is_queen_same_row(y)` from src/game.py:
`self.grid[:, y].sum() == 1`. -/
def is_queen_same_row (s : GameState) (y : Int) : Option Bool :=
  (s.grid.mapM (fun row => listGetI row y)).map (fun col => col.sum == 1)

/-- Embeds `get_color_zone(x, y)` from src/game.py: first zone whose zipped
coordinate lists contain `(x, y)`; Python `None` when no zone matches. -/
def get_color_zone (s : GameState) (x y : Int) : Option Nat :=
  s.color_zones.findSome? (fun cz =>
    if (cz.xs.zip cz.ys).contains (x, y) then some cz.color else none)

/-- Embeds `is_queen_same_color_zone(x, y)` from src/game.py. -/
def is_queen_same_color_zone (s : GameState) (x y : Int) : Bool :=
  match get_color_zone s x y with
  | some c => dictMem (some c) s.color_zone_queens
  | none => false

/-- Embeds `is_queen_same_corner(x, y)` from src/game.py: collect the in-guard
diagonal neighbours and test whether any of them is 1. -/
def is_queen_same_corner (s : GameState) (x y : Int) : Option Bool := do
  let n : Int := (s.n : Int)
  let c1 ← if x > 0 && y > 0 then
    (gridGet s.grid (x - 1) (y - 1)).map (fun v => [v]) else some []
  let c2 ← if x > 0 && y < n - 1 then
    (gridGet s.grid (x - 1) (y + 1)).map (fun v => [v]) else some []
  let c3 ← if x < n - 1 && y > 0 then
    (gridGet s.grid (x + 1) (y - 1)).map (fun v => [v]) else some []
  let c4 ← if x < n - 1 && y < n - 1 then
    (gridGet s.grid (x + 1) (y + 1)).map (fun v => [v]) else some []
  some ((c1 ++ c2 ++ c3 ++ c4).contains 1)

/-- The four-field check result of `is_queen_correct`. -/
structure Checks where
  row : Bool
  column : Bool
  color_zone : Bool
  corner : Bool
deriving DecidableEq

/-- Embeds `is_queen_correct(x, y)` from src/game.py, evaluating the four checks
in source order (row, column, color zone, corner). -/
def is_queen_correct (s : GameState) (x y : Int) : Option Checks := do
  let sameRow ← is_queen_same_row s y
  let sameCol ← is_queen_same_column s x
  let sameZone := is_queen_same_color_zone s x y
  let sameCorner ← is_queen_same_corner s x y
  some { row := !sameRow, column := !sameCol,
         color_zone := !sameZone, corner := !sameCorner }

/-- The left-click handler of `Queens.run` (src/game.py lines 249-292).
`cm` is the key set of the module-level `color_map` imported from
config.py, which is not among the sources; the removal branch evaluates
`color_map[queen_color_zone]`, which raises KeyError (`none`) when the
zone (possibly Python `None`) is not a key of `color_map`. -/
def left_click (cm : List Nat) (s : GameState) (x y : Int) : Option GameState := do
  let v ← gridGet s.grid x y
  if v == 1 then do
    let g2 ← gridSet s.grid x y 0
    let zone := get_color_zone s x y
    let czq := if dictMem zone s.color_zone_queens then dictDel zone s.color_zone_queens
               else s.color_zone_queens
    match zone with
    | some c =>
        if cm.contains c then
          some { s with
                  grid := g2,
                  n_valid_queens := s.n_valid_queens - 1,
                  color_zone_queens := czq }
        else none
    | none => none
  else do
    let checks ← is_queen_correct s x y
    if checks.row && checks.column && checks.color_zone && checks.corner then do
      let g2 ← gridSet s.grid x y 1
      some { s with
              grid := g2,
              n_valid_queens := s.n_valid_queens + 1,
              color_zone_queens := dictInsert (get_color_zone s x y) (x, y)
                s.color_zone_queens }
    else
      some s

/-- The right-click (cross toggle) handler of `Queens.run`
(src/game.py lines 295-338): cell 0 becomes -1, cell -1 becomes 0,
a queen cell is left untouched (no branch matches). -/
def right_click (s : GameState) (x y : Int) : Option GameState := do
  let v ← gridGet s.grid x y
  if v == 0 then do
    let g2 ← gridSet s.grid x y (-1)
    some { s with grid := g2 }
  else if v == -1 then do
    let g2 ← gridSet s.grid x y 0
    some { s with grid := g2 }
  else
    some s

/-- The solved test of `Queens.run`: `n_valid_queens == self.n`. -/
def is_solved (s : GameState) : Bool :=
  s.n_valid_queens == (s.n : Int)

/-- Embeds `Queens.initialize_game` plus the run-loop locals: an n x n zero grid,
the configured color zones, an empty `color_zone_queens` dict and
`n_valid_queens = 0`. -/
def init_game (n : Nat) (zones : List ColorZone) : GameState :=
  { n := n,
    grid := List.replicate n (List.replicate n 0),
    color_zones := zones,
    color_zone_queens := [],
    n_valid_queens := 0 }

/-- Run a sequence of left clicks (place / remove operations) in order. -/
def run_left_clicks (cm : List Nat) (s : GameState) :
    List (Int × Int) → Option GameState
  | [] => some s
  | xy :: rest => (left_click cm s xy.1 xy.2).bind
      (fun s2 => run_left_clicks cm s2 rest)

/-! ## Generator (src/generate/generate_n_queens.py) -/

/-- Here `adjacent_ok a b` is the Boolean form of the adjacent-column
constraint `|a - b| != 1`. -/
def adjacent_ok (a b : Nat) : Bool :=
  !((a : Int) - b == 1) && !((b : Int) - a == 1)

/-- Satisfaction of the constraints of the CP-SAT model built by
`solve_n_queens` by a valuation `f`: each variable `Q i` ranges over
`[0, n-1]`; for every `i < j` the model adds `Q i != Q j` (twice in the
source), and for `j = i + 1` it adds `|Q i - Q j| != 1` via an
absolute-difference variable. -/
def cp_model_check (n : Nat) (f : Nat → Nat) : Bool :=
  (List.range n).all (fun i => decide (f i < n)) &&
  (List.range n).all (fun i => (List.range n).all (fun j =>
    !(decide (i < j)) ||
      ((!(f i == f j)) && (!(j == i + 1) || adjacent_ok (f i) (f j)))))

/-- Satisfaction of the CP-SAT model by a row assignment given as a
list (entry `i` is the row of the queen in column `i`). -/
def feasible_check (n : Nat) (qs : List Nat) : Bool :=
  (qs.length == n) && cp_model_check n (fun i => qs.getD i 0)

/-- Embeds `solve_n_queens(n)` after `solver.Solve(model)`: the status returned
by the solver is discarded by the source, and the function
unconditionally returns `[(i, solver.Value(queens[i])) for i in range(n)]`;
`solverValue` abstracts `solver.Value`. -/
def solve_n_queens (n : Nat) (solverValue : Nat → Nat) : List (Nat × Nat) :=
  (List.range n).map (fun i => (i, solverValue i))

/-! ## Generator (src/generator/generate_color_zones.py) -/

/-- A queen position as accessed by `generate_color_zones`
(`queen["x"]`, `queen["y"]`). -/
structure QueenPos where
  x : Int
  y : Int
deriving DecidableEq

/-- Embeds `generate_color_zones(queens_positions)` from
src/generator/generate_color_zones.py: takes the first `n` keys of the
module-level `color_map` (the parameter `cm`; config.py is not among the
sources) and builds, for each such color, a zone whose coordinate lists
are the x-list and y-list of ALL queen positions.  The region-growing
step is an unimplemented TODO in the source. -/
def generate_color_zones (cm : List Nat) (queens_positions : List QueenPos) :
    List ColorZone :=
  let n := queens_positions.length
  (cm.take n).map (fun c =>
    { color := c,
      xs := queens_positions.map (fun q => q.x),
      ys := queens_positions.map (fun q => q.y) })

/-! ## Claim-side notions (the spec's vocabulary, for comparison) -/

/-- The cells of a zone: the zipped coordinate lists. -/
def zone_cells (z : ColorZone) : List (Int × Int) :=
  z.xs.zip z.ys

/-- The zone list covers every cell of the n x n grid. -/
def zones_cover (n : Nat) (zs : List ColorZone) : Bool :=
  (List.range n).all (fun i => (List.range n).all (fun j =>
    zs.any (fun z => (zone_cells z).contains ((i : Int), (j : Int)))))

/-- Erase every CROSS mark (value -1) from the board, keeping queens. -/
def erase_crosses (g : Grid) : Grid :=
  g.map (fun row => row.map (fun v => if v == -1 then 0 else v))

/-- The sum the engine computes for the line `grid[x]`
(the running "count" used by `is_queen_same_column`). -/
def row_sum (g : Grid) (x : Nat) : Int :=
  (g.getD x []).sum

/-- The sum the engine computes for the line `grid[:, y]`
(the running "count" used by `is_queen_same_row`). -/
def col_sum (g : Grid) (y : Nat) : Int :=
  (g.map (fun row => row.getD y 0)).sum

/-- Number of QUEEN marks (value 1) in the line `grid[x]`. -/
def queen_count_row (g : Grid) (x : Nat) : Nat :=
  (g.getD x []).count 1

/-- Number of QUEEN marks (value 1) in the line `grid[:, y]`. -/
def queen_count_col (g : Grid) (y : Nat) : Nat :=
  (g.map (fun row => row.getD y 0)).count 1

/-- All cells currently holding a QUEEN mark, as (x, y) pairs. -/
def queen_cells (s : GameState) : List (Nat × Nat) :=
  (List.range s.n).flatMap (fun i => (List.range s.n).filterMap (fun j =>
    if (s.grid.getD i []).getD j 0 == 1 then some (i, j) else none))

/-- The spec's pairwise condition on two placed queens: different row
line, different column line, different color zone, not diagonally
adjacent. -/
def pair_ok (s : GameState) (p q : Nat × Nat) : Bool :=
  (!(p.1 == q.1)) && (!(p.2 == q.2)) &&
  (!(get_color_zone s p.1 p.2 == get_color_zone s q.1 q.2)) &&
  (let dx : Int := (p.1 : Int) - q.1
   let dy : Int := (p.2 : Int) - q.2
   !((dx == 1 || dx == -1) && (dy == 1 || dy == -1)))

/-- The spec's brute-force solved test: exactly n queens and every pair
satisfies `pair_ok`. -/
def solved_and_valid (s : GameState) : Bool :=
  (queen_cells s).length == s.n &&
  (List.range (queen_cells s).length).all (fun i =>
    (List.range (queen_cells s).length).all (fun j =>
      !(decide (i < j)) ||
        pair_ok s ((queen_cells s).getD i (0, 0)) ((queen_cells s).getD j (0, 0))))

/-- A reachable 3x3 state with a cross at (0,0) and a queen at (0,1):
right-click (0,0) then left-click (0,1) from a fresh zone-less board. -/
def demoState : GameState :=
  ⟨3, [[-1, 1, 0], [0, 0, 0], [0, 0, 0]], [], [(none, (0, 1))], 1⟩

/-- State `demoState` with its cross erased (same fields otherwise). -/
def demoStateNoCross : GameState :=
  ⟨3, [[0, 1, 0], [0, 0, 0], [0, 0, 0]], [], [(none, (0, 1))], 1⟩

/-! ## Claim theorems -/

/-- C1: the claim says each check passes iff the corresponding queen
count is zero (row, column, zone, corner), so a placement is legal only
if the target's lines hold no queen.  The code instead tests
`sum() == 1` on a grid where crosses are -1: on the reachable state
`demoState` (cross at (0,0), queen at (0,1)) the query at (0,2) returns
all four checks true — the placement is deemed legal — although the line
`grid[0]` already holds one queen.  This contradicts the claim and the
function's own docstring. -/
theorem c1_query_checks_diverge :
    (right_click (init_game 3 []) 0 0).bind (fun s => left_click [] s 0 1) =
      some demoState ∧
    is_queen_correct demoState 0 2 = some ⟨true, true, true, true⟩ ∧
    queen_count_row demoState.grid 0 = 1 := by
  decide

/-- C2: the claim says CROSS marks never influence the four checks.  On
`demoState` the query at (0,2) returns column-ok true, but on the same
board with the cross erased it returns column-ok false: the cross at
(0,0) cancels the queen at (0,1) in the engine's sum. -/
theorem c2_cross_changes_checks :
    erase_crosses demoState.grid = demoStateNoCross.grid ∧
    demoState.n = demoStateNoCross.n ∧
    demoState.color_zones = demoStateNoCross.color_zones ∧
    demoState.color_zone_queens = demoStateNoCross.color_zone_queens ∧
    is_queen_correct demoState 0 2 = some ⟨true, true, true, true⟩ ∧
    is_queen_correct demoStateNoCross 0 2 = some ⟨true, false, true, true⟩ := by
  decide

/-- C3: the claim says the solved test is equivalent to "exactly N
queens with no pairwise row/column/zone/corner conflict".  From a fresh
zone-less 3x3 board the click sequence right(0,0), left(0,1), left(0,2),
left(2,0) is accepted by the engine and reaches a state it reports as
solved, yet the queens at (0,1) and (0,2) share the line `grid[0]` (and
all three share the None zone), so the brute-force pairwise test fails. -/
theorem c3_solved_without_validity :
    (right_click (init_game 3 []) 0 0).bind (fun s1 =>
      (left_click [] s1 0 1).bind (fun s2 =>
        (left_click [] s2 0 2).bind (fun s3 => left_click [] s3 2 0))) =
      some (⟨3, [[-1, 1, 1], [0, 0, 0], [1, 0, 0]], [], [(none, (2, 0))], 3⟩ :
        GameState) ∧
    is_solved ⟨3, [[-1, 1, 1], [0, 0, 0], [1, 0, 0]], [], [(none, (2, 0))], 3⟩ =
      true ∧
    solved_and_valid
      ⟨3, [[-1, 1, 1], [0, 0, 0], [1, 0, 0]], [], [(none, (2, 0))], 3⟩ = false := by
  decide

/-- C9: the claim says every operation rejects an out-of-bounds
coordinate with an InvalidCoordinate error and touches no board cell.
The code has no such defence: numpy wraps negative indices, so a
right-click at (-1, 0) on a fresh 1x1 board writes a cross into the real
cell (0,0); a left-click at (-1, 0) on the same board places a queen in
cell (0,0) and even declares the game solved; and a coordinate >= n
raises IndexError (modelled as `none`) instead of a recoverable
rejection. -/
theorem c9_out_of_bounds_not_defended :
    right_click (init_game 1 []) (-1) 0 =
      some (⟨1, [[-1]], [], [], 0⟩ : GameState) ∧
    left_click [] (init_game 1 []) (-1) 0 =
      some (⟨1, [[1]], [], [(none, (-1, 0))], 1⟩ : GameState) ∧
    is_solved ⟨1, [[1]], [], [(none, (-1, 0))], 1⟩ = true ∧
    right_click (init_game 1 []) 1 0 = none ∧
    left_click [] (init_game 1 []) 1 0 = none := by
  decide

/-- C8 counterexample: the claim says toggling a cross on a QUEEN cell
fails with a CellOccupied error.  On the reachable 1x1 board whose only
cell holds a queen, the right-click handler completes normally (`some`,
no exception, no error of any kind) and returns the state unchanged:
nothing fails. -/
theorem c8_no_cell_occupied_failure :
    left_click [] (init_game 1 []) 0 0 =
      some (⟨1, [[1]], [], [(none, (0, 0))], 1⟩ : GameState) ∧
    right_click ⟨1, [[1]], [], [(none, (0, 0))], 1⟩ 0 0 =
      some (⟨1, [[1]], [], [(none, (0, 0))], 1⟩ : GameState) := by
  decide

/-- C10 counterexample: the claim says that once a queen on an unzoned
cell is recorded under the None key, the color-zone check fails for
every other unzoned cell.  After placing a queen on the unzoned cell
(1,1) of a zone-less 3x3 board, the None key is recorded, yet the
color-zone check for the other unzoned cell (0,0) still passes
(`is_queen_same_color_zone` returns false whenever the zone lookup is
None, without consulting the dict). -/
theorem c10_unzoned_cells_share_nothing :
    left_click [] (init_game 3 []) 1 1 =
      some (⟨3, [[0, 0, 0], [0, 1, 0], [0, 0, 0]], [], [(none, (1, 1))], 1⟩ :
        GameState) ∧
    get_color_zone ⟨3, [[0, 0, 0], [0, 1, 0], [0, 0, 0]], [], [(none, (1, 1))], 1⟩
      0 0 = none ∧
    dictMem none [(none, (1, 1))] = true ∧
    is_queen_same_color_zone
      ⟨3, [[0, 0, 0], [0, 1, 0], [0, 0, 0]], [], [(none, (1, 1))], 1⟩ 0 0 =
      false := by
  decide

/-! ## Helper lemmas -/

theorem npIdx_coe (len x : Nat) (h : x < len) : npIdx len (x : Int) = some x := by
  unfold npIdx
  rw [if_pos]
  · simp
  · constructor
    · exact Int.natCast_nonneg x
    · exact_mod_cast h

theorem npIdx_lt {len : Nat} {i : Int} {j : Nat} (h : npIdx len i = some j) :
    j < len := by
  unfold npIdx at h
  split at h
  · rename_i hcond
    cases h
    omega
  · split at h
    · rename_i hcond
      cases h
      omega
    · cases h

theorem listGetI_coe {α : Type} (l : List α) (x : Nat) (h : x < l.length) :
    listGetI l (x : Int) = l.get? x := by
  rw [listGetI, npIdx_coe _ _ h]
  rfl

theorem set_getD_self {α : Type} (l : List α) (i : Nat) (d : α)
    (h : i < l.length) : l.set i (l.getD i d) = l := by
  induction l generalizing i with
  | nil => simp at h
  | cons a t ih =>
    cases i with
    | zero => simp
    | succ k =>
      have hk : k < t.length := by simpa using h
      have := ih k hk
      simp only [List.set, List.getD_cons_succ]
      rw [this]

theorem feasible_check_two (a b : Nat) :
    feasible_check 2 [a, b] =
      (decide (a < 2) && (decide (b < 2) && (!(a == b) && adjacent_ok a b))) := by
  norm_num [feasible_check, cp_model_check, List.all_cons, List.range_succ]
  cases ha : decide (a < 2) <;> cases hb : decide (b < 2) <;>
    cases hab : a == b <;> cases hadj : adjacent_ok a b <;> simp_all

/-- C6: the claim says that when the CSP has no solution, generation
fails with an Unsatisfiable error, the case being checked.  In the code
`solver.Solve(model)` discards the solver status and the function
unconditionally returns `[(i, solver.Value(queens[i]))]`.  The model is
genuinely unsatisfiable for n = 2 (two distinct rows in {0,1} always
differ by 1, violating the adjacent-column constraint), yet for every
possible solver valuation the function still returns a 2-element
"placement" and no failure path exists. -/
theorem c6_unsatisfiable_not_checked :
    (∀ qs : List Nat, feasible_check 2 qs = false) ∧
    (∀ f : Nat → Nat, solve_n_queens 2 f = [(0, f 0), (1, f 1)]) := by
  constructor
  · intro qs
    match qs with
    | [] => rfl
    | [a] => rfl
    | a :: b :: c :: t => rfl
    | [a, b] =>
      rw [feasible_check_two]
      by_cases ha : a < 2
      · by_cases hb : b < 2
        · have ha2 : a = 0 ∨ a = 1 := by omega
          have hb2 : b = 0 ∨ b = 1 := by omega
          rcases ha2 with rfl | rfl <;> rcases hb2 with rfl | rfl <;> decide
        · simp [hb]
      · simp [ha]
  · intro f
    rfl

/-- C7: the function `solve_n_queens 8` returns exactly the 8 pairs
`(i, solver.Value(Q i))`; whenever the solver valuation satisfies the
model it built (the only guarantee the external CP-SAT solver gives),
the returned pairs have pairwise distinct first components, pairwise
distinct second components, and no two pairs whose first components
differ by exactly 1 have second components differing by exactly 1. -/
theorem c7_solution_is_valid (f : Nat → Nat) (h : cp_model_check 8 f = true) :
    (solve_n_queens 8 f).length = 8 ∧
    (solve_n_queens 8 f).Pairwise (fun p q =>
      p.1 ≠ q.1 ∧ p.2 ≠ q.2 ∧
      (((q.1 : Int) - p.1 = 1 ∨ (p.1 : Int) - q.1 = 1) →
        ((p.2 : Int) - q.2 ≠ 1 ∧ (q.2 : Int) - p.2 ≠ 1))) := by
  rw [cp_model_check, Bool.and_eq_true, List.all_eq_true, List.all_eq_true] at h
  obtain ⟨hdom, hpair⟩ := h
  constructor
  · simp [solve_n_queens]
  · rw [List.pairwise_iff_getElem]
    intro i j hi hj hij
    have hi8 : i < 8 := by simpa [solve_n_queens] using hi
    have hj8 : j < 8 := by simpa [solve_n_queens] using hj
    simp only [solve_n_queens, List.getElem_map, List.getElem_range]
    have hmain := List.all_eq_true.mp (hpair i (by simpa using hi8)) j
      (by simpa using hj8)
    rw [Bool.or_eq_true, Bool.not_eq_true', decide_eq_false_iff_not] at hmain
    rcases hmain with hmain | hmain
    · omega
    rw [Bool.and_eq_true, Bool.not_eq_true', beq_eq_false_iff_ne,
      Bool.or_eq_true, Bool.not_eq_true', beq_eq_false_iff_ne] at hmain
    obtain ⟨hne, hadjc⟩ := hmain
    refine ⟨by omega, hne, ?_⟩
    intro hadj
    have hj1 : j = i + 1 := by omega
    rcases hadjc with hbad | hok
    · exact absurd hj1 hbad
    · rw [adjacent_ok, Bool.and_eq_true, Bool.not_eq_true', beq_eq_false_iff_ne,
        Bool.not_eq_true', beq_eq_false_iff_ne] at hok
      exact ⟨hok.1, hok.2⟩

/-- The valuation used to witness `c7_solution_is_valid`: a concrete
satisfying assignment of the n = 8 model. -/
def c7_assignment : Nat → Nat := fun i => [0, 2, 4, 6, 1, 3, 5, 7].getD i 0

theorem c7_solution_is_valid_witness :
    cp_model_check 8 c7_assignment = true ∧
    ((solve_n_queens 8 c7_assignment).length = 8 ∧
     (solve_n_queens 8 c7_assignment).Pairwise (fun p q =>
       p.1 ≠ q.1 ∧ p.2 ≠ q.2 ∧
       (((q.1 : Int) - p.1 = 1 ∨ (p.1 : Int) - q.1 = 1) →
         ((p.2 : Int) - q.2 ≠ 1 ∧ (q.2 : Int) - p.2 ≠ 1)))) :=
  ⟨by decide, c7_solution_is_valid c7_assignment (by decide)⟩

/-- C5: the claim says `generate_color_zones` always produces pairwise
disjoint zones covering all N² cells.  The region-growing step is an
unimplemented TODO: whatever the color table contains, every produced
zone consists of exactly the queen cells themselves, so for the queens
(0,0), (1,1) of a 2x2 grid all zones are the identical two-cell list
and the cell (0,1) is covered by no zone. -/
theorem c5_zones_not_a_partition (cm : List Nat) :
    (∀ z ∈ generate_color_zones cm [⟨0, 0⟩, ⟨1, 1⟩],
      zone_cells z = [(0, 0), (1, 1)]) ∧
    zones_cover 2 (generate_color_zones cm [⟨0, 0⟩, ⟨1, 1⟩]) = false := by
  have hall : ∀ z ∈ generate_color_zones cm [⟨0, 0⟩, ⟨1, 1⟩],
      zone_cells z = [(0, 0), (1, 1)] := by
    intro z hz
    simp only [generate_color_zones, List.mem_map] at hz
    obtain ⟨c, _, rfl⟩ := hz
    rfl
  refine ⟨hall, ?_⟩
  have hany : (generate_color_zones cm [⟨0, 0⟩, ⟨1, 1⟩]).any
      (fun z => (zone_cells z).contains ((0 : Int), (1 : Int))) = false := by
    rw [List.any_eq_false]
    intro z hz
    rw [hall z hz]
    decide
  rw [zones_cover, List.all_eq_false]
  refine ⟨0, by decide, ?_⟩
  rw [Bool.not_eq_true, List.all_eq_false]
  refine ⟨1, by decide, ?_⟩
  rw [Bool.not_eq_true]
  exact hany

/-- C10 (amended): for every cell whose zone lookup is None, the
color-zone check passes unconditionally — `is_queen_same_color_zone`
returns false without consulting the recorded queens — so unzoned cells
never block each other; and a successful left-click on such a cell
either leaves the state unchanged (a rejected placement) or records the
new queen under the None key of `color_zone_queens`. -/
theorem c10_unzoned_check_passes (cm : List Nat) (s : GameState) (x y : Int)
    (h : get_color_zone s x y = none) :
    is_queen_same_color_zone s x y = false ∧
    ∀ s2, left_click cm s x y = some s2 →
      s2 = s ∨ s2.color_zone_queens = dictInsert none (x, y) s.color_zone_queens := by
  constructor
  · rw [is_queen_same_color_zone, h]
  · intro s2 h2
    rw [left_click] at h2
    simp only [Option.bind_eq_bind'] at h2
    cases hv : gridGet s.grid x y with
    | none => rw [hv, Option.none_bind] at h2; cases h2
    | some v =>
      rw [hv, Option.some_bind] at h2
      by_cases hq : v == 1
      · rw [if_pos hq] at h2
        cases hgs : gridSet s.grid x y 0 with
        | none => rw [hgs, Option.none_bind] at h2; cases h2
        | some g2 =>
          rw [hgs, Option.some_bind] at h2
          simp only [h] at h2
          cases h2
      · rw [if_neg hq] at h2
        cases hc : is_queen_correct s x y with
        | none => rw [hc, Option.none_bind] at h2; cases h2
        | some checks =>
          rw [hc, Option.some_bind] at h2
          by_cases hall :
              (checks.row && checks.column && checks.color_zone && checks.corner) = true
          · rw [if_pos hall] at h2
            cases hgs : gridSet s.grid x y 1 with
            | none => rw [hgs, Option.none_bind] at h2; cases h2
            | some g2 =>
              rw [hgs, Option.some_bind, Option.some_inj] at h2
              right
              rw [← h2, h]
          · rw [if_neg hall, Option.some_inj] at h2
            left
            exact h2.symm

theorem c10_unzoned_check_passes_witness :
    get_color_zone (init_game 3 []) 1 1 = none ∧
    is_queen_same_color_zone (init_game 3 []) 1 1 = false ∧
    ((⟨3, [[0, 0, 0], [0, 1, 0], [0, 0, 0]], [], [(none, (1, 1))], 1⟩ : GameState) =
        init_game 3 [] ∨
      (GameState.color_zone_queens
        ⟨3, [[0, 0, 0], [0, 1, 0], [0, 0, 0]], [], [(none, (1, 1))], 1⟩) =
        dictInsert none (1, 1) (init_game 3 []).color_zone_queens) :=
  ⟨by decide,
   (c10_unzoned_check_passes [] (init_game 3 []) 1 1 (by decide)).1,
   (c10_unzoned_check_passes [] (init_game 3 []) 1 1 (by decide)).2
     ⟨3, [[0, 0, 0], [0, 1, 0], [0, 0, 0]], [], [(none, (1, 1))], 1⟩ (by decide)⟩

theorem get?_eq_some_getD {α : Type} (l : List α) (x : Nat) (d : α)
    (h : x < l.length) : l.get? x = some (l.getD x d) := by
  rw [List.get?_eq_getElem?, List.getD_eq_getElem?_getD,
    List.getElem?_eq_getElem h]
  rfl

theorem gridGet_nat (g : Grid) (x y : Nat) (hx : x < g.length)
    (hy : y < (g.getD x []).length) :
    gridGet g (x : Int) (y : Int) = some ((g.getD x []).getD y 0) := by
  rw [gridGet, listGetI_coe _ _ hx, get?_eq_some_getD _ _ [] hx,
    Option.some_bind, listGetI_coe _ _ hy, get?_eq_some_getD _ _ 0 hy]

theorem gridSet_nat (g : Grid) (x y : Nat) (v : Int) (hx : x < g.length)
    (hy : y < (g.getD x []).length) :
    gridSet g (x : Int) (y : Int) v = some (g.set x ((g.getD x []).set y v)) := by
  rw [gridSet, npIdx_coe _ _ hx, Option.some_bind, get?_eq_some_getD _ _ [] hx,
    Option.some_bind, listSetI, npIdx_coe _ _ hy]
  rfl

/-- The state the cross-toggle handler actually produces: a QUEEN cell
(or any value other than 0 and -1) is left alone, an EMPTY cell gets a
cross, a CROSS cell is cleared. -/
def toggle_result (s : GameState) (x y : Nat) : GameState :=
  let v := (s.grid.getD x []).getD y 0
  if v = 0 then { s with grid := s.grid.set x ((s.grid.getD x []).set y (-1)) }
  else if v = -1 then { s with grid := s.grid.set x ((s.grid.getD x []).set y 0) }
  else s

theorem right_click_eq (s : GameState) (x y : Nat)
    (hx : x < s.grid.length) (hy : y < (s.grid.getD x []).length) :
    right_click s (x : Int) (y : Int) = some (toggle_result s x y) := by
  rw [right_click]
  simp only [Option.bind_eq_bind']
  rw [gridGet_nat s.grid x y hx hy, Option.some_bind]
  rw [toggle_result]
  by_cases h0 : (s.grid.getD x []).getD y 0 = 0
  · rw [if_pos (by exact beq_iff_eq.mpr h0), if_pos h0]
    rw [gridSet_nat s.grid x y (-1) hx hy, Option.some_bind]
  · rw [if_neg (by simpa using h0), if_neg h0]
    by_cases h1 : (s.grid.getD x []).getD y 0 = -1
    · rw [if_pos (by exact beq_iff_eq.mpr h1), if_pos h1]
      rw [gridSet_nat s.grid x y 0 hx hy, Option.some_bind]
    · rw [if_neg (by simpa using h1), if_neg h1]

theorem getD_set_self {α : Type} (l : List α) (i : Nat) (v d : α)
    (h : i < l.length) : (l.set i v).getD i d = v := by
  simp [List.getD_eq_getElem?_getD, List.getElem?_set_self, h]

theorem toggle_grid_length (s : GameState) (x y : Nat) :
    (toggle_result s x y).grid.length = s.grid.length := by
  rw [toggle_result]
  split
  · simp
  · split
    · simp
    · rfl

theorem toggle_row_length (s : GameState) (x y : Nat) (hx : x < s.grid.length) :
    ((toggle_result s x y).grid.getD x []).length = (s.grid.getD x []).length := by
  rw [toggle_result]
  split
  · rw [getD_set_self _ _ _ _ hx]; simp
  · split
    · rw [getD_set_self _ _ _ _ hx]; simp
    · rfl

theorem toggle_result_involutive (s : GameState) (x y : Nat)
    (hx : x < s.grid.length) (hy : y < (s.grid.getD x []).length) :
    toggle_result (toggle_result s x y) x y = s := by
  by_cases h0 : (s.grid.getD x []).getD y 0 = 0
  · have ht : toggle_result s x y =
        { s with grid := s.grid.set x ((s.grid.getD x []).set y (-1)) } := by
      rw [toggle_result, if_pos h0]
    rw [ht, toggle_result]
    rw [getD_set_self _ _ _ _ hx, getD_set_self _ _ _ _ hy]
    rw [if_neg (by norm_num), if_pos rfl]
    have hset := set_getD_self (s.grid.getD x []) y 0 hy
    rw [h0] at hset
    have houter := set_getD_self s.grid x [] hx
    simp only [List.set_set, getD_set_self _ _ _ _ hx, hset, houter]
  · by_cases h1 : (s.grid.getD x []).getD y 0 = -1
    · have ht : toggle_result s x y =
          { s with grid := s.grid.set x ((s.grid.getD x []).set y 0) } := by
        rw [toggle_result, if_neg h0, if_pos h1]
      rw [ht, toggle_result]
      rw [getD_set_self _ _ _ _ hx, getD_set_self _ _ _ _ hy]
      rw [if_pos rfl]
      have hset := set_getD_self (s.grid.getD x []) y 0 hy
      rw [h1] at hset
      have houter := set_getD_self s.grid x [] hx
      simp only [List.set_set, getD_set_self _ _ _ _ hx, hset, houter]
    · have ht : toggle_result s x y = s := by
        rw [toggle_result, if_neg h0, if_neg h1]
      rw [ht, ht]

/-- C8 (amended): for an in-bounds cell, the cross toggle always
completes normally (no error of any kind is signalled): a QUEEN cell is
left untouched, EMPTY becomes CROSS and CROSS becomes EMPTY
(`toggle_result`), and toggling the same cell twice restores the exact
previous state. -/
theorem c8_toggle_cross (s : GameState) (x y : Nat)
    (hx : x < s.grid.length) (hy : y < (s.grid.getD x []).length) :
    right_click s (x : Int) (y : Int) = some (toggle_result s x y) ∧
    (right_click s (x : Int) (y : Int)).bind
      (fun s2 => right_click s2 (x : Int) (y : Int)) = some s := by
  refine ⟨right_click_eq s x y hx hy, ?_⟩
  rw [right_click_eq s x y hx hy, Option.some_bind]
  have hx2 : x < (toggle_result s x y).grid.length := by
    rw [toggle_grid_length]; exact hx
  have hy2 : y < ((toggle_result s x y).grid.getD x []).length := by
    rw [toggle_row_length _ _ _ hx]; exact hy
  rw [right_click_eq _ x y hx2 hy2, toggle_result_involutive _ _ _ hx hy]

theorem c8_toggle_cross_witness :
    0 < demoState.grid.length ∧ 0 < (demoState.grid.getD 0 []).length ∧
    (right_click demoState ((0 : Nat) : Int) ((0 : Nat) : Int) =
       some (toggle_result demoState 0 0) ∧
     (right_click demoState ((0 : Nat) : Int) ((0 : Nat) : Int)).bind
       (fun s2 => right_click s2 ((0 : Nat) : Int) ((0 : Nat) : Int)) =
       some demoState) :=
  ⟨by decide, by decide, c8_toggle_cross demoState 0 0 (by decide) (by decide)⟩

/-! ## C4: consistency of the counts under place / remove sequences -/

/-- Shape and content invariant maintained by place / remove operations:
an n x n grid all of whose entries are 0 or 1. -/
def grid_ok (n : Nat) (g : Grid) : Prop :=
  g.length = n ∧ (∀ row ∈ g, row.length = n) ∧
  (∀ row ∈ g, ∀ v ∈ row, v = 0 ∨ v = 1)

theorem init_grid_ok (n : Nat) (zones : List ColorZone) :
    grid_ok n (init_game n zones).grid := by
  refine ⟨by simp [init_game], ?_, ?_⟩
  · intro row hrow
    rw [init_game] at hrow
    obtain ⟨-, rfl⟩ := List.mem_replicate.mp hrow
    simp
  · intro row hrow v hv
    rw [init_game] at hrow
    obtain ⟨-, rfl⟩ := List.mem_replicate.mp hrow
    obtain ⟨-, rfl⟩ := List.mem_replicate.mp hv
    left
    rfl

theorem gridSet_grid_ok {n : Nat} {g g2 : Grid} {x y v : Int}
    (hv : v = 0 ∨ v = 1) (hok : grid_ok n g) (h : gridSet g x y v = some g2) :
    grid_ok n g2 := by
  obtain ⟨hlen, hrows, hvals⟩ := hok
  rw [gridSet] at h
  cases hix : npIdx g.length x with
  | none => rw [hix] at h; cases h
  | some ix =>
    rw [hix, Option.some_bind] at h
    cases hrow : g.get? ix with
    | none => rw [hrow] at h; cases h
    | some row =>
      rw [hrow, Option.some_bind] at h
      cases hset : listSetI row y v with
      | none => rw [hset] at h; cases h
      | some row2 =>
        rw [hset] at h
        rw [Option.map_some'] at h
        have hg2 : g2 = g.set ix row2 := (Option.some_inj.mp h).symm
        have hrowmem : row ∈ g := List.get?_mem hrow
        have hrow2 : ∃ iy, row2 = row.set iy v := by
          rw [listSetI] at hset
          cases hiy : npIdx row.length y with
          | none => rw [hiy] at hset; cases hset
          | some iy =>
            rw [hiy, Option.map_some'] at hset
            exact ⟨iy, (Option.some_inj.mp hset).symm⟩
        obtain ⟨iy, rfl⟩ := hrow2
        subst hg2
        refine ⟨by simpa using hlen, ?_, ?_⟩
        · intro r hr
          rcases List.mem_or_eq_of_mem_set hr with hr2 | rfl
          · exact hrows r hr2
          · rw [List.length_set]
            exact hrows row hrowmem
        · intro r hr w hw
          rcases List.mem_or_eq_of_mem_set hr with hr2 | rfl
          · exact hvals r hr2 w hw
          · rcases List.mem_or_eq_of_mem_set hw with hw2 | rfl
            · exact hvals row hrowmem w hw2
            · exact hv

theorem left_click_grid_ok {n : Nat} {cm : List Nat} {s s2 : GameState}
    {x y : Int} (hok : grid_ok n s.grid) (h : left_click cm s x y = some s2) :
    grid_ok n s2.grid := by
  rw [left_click] at h
  simp only [Option.bind_eq_bind'] at h
  cases hv : gridGet s.grid x y with
  | none => rw [hv, Option.none_bind] at h; cases h
  | some v =>
    rw [hv, Option.some_bind] at h
    by_cases hq : v == 1
    · rw [if_pos hq] at h
      cases hgs : gridSet s.grid x y 0 with
      | none => rw [hgs, Option.none_bind] at h; cases h
      | some g2 =>
        rw [hgs, Option.some_bind] at h
        have hg2 : grid_ok n g2 := gridSet_grid_ok (Or.inl rfl) hok hgs
        cases hz : get_color_zone s x y with
        | none => simp only [hz] at h; cases h
        | some c =>
          simp only [hz] at h
          by_cases hcm : cm.contains c = true
          · rw [if_pos hcm, Option.some_inj] at h
            rw [← h]
            exact hg2
          · rw [if_neg hcm] at h; cases h
    · rw [if_neg hq] at h
      cases hc : is_queen_correct s x y with
      | none => rw [hc, Option.none_bind] at h; cases h
      | some checks =>
        rw [hc, Option.some_bind] at h
        by_cases hall :
            (checks.row && checks.column && checks.color_zone && checks.corner) = true
        · rw [if_pos hall] at h
          cases hgs : gridSet s.grid x y 1 with
          | none => rw [hgs, Option.none_bind] at h; cases h
          | some g2 =>
            rw [hgs, Option.some_bind, Option.some_inj] at h
            rw [← h]
            exact gridSet_grid_ok (Or.inr rfl) hok hgs
        · rw [if_neg hall, Option.some_inj] at h
          rw [← h]
          exact hok

theorem run_left_clicks_grid_ok {n : Nat} {cm : List Nat} {s s2 : GameState}
    {ops : List (Int × Int)} (hok : grid_ok n s.grid)
    (h : run_left_clicks cm s ops = some s2) : grid_ok n s2.grid := by
  induction ops generalizing s with
  | nil =>
    rw [run_left_clicks] at h
    cases h
    exact hok
  | cons op rest ih =>
    rw [run_left_clicks] at h
    cases hlc : left_click cm s op.1 op.2 with
    | none => rw [hlc] at h; cases h
    | some s3 =>
      rw [hlc, Option.some_bind] at h
      exact ih (left_click_grid_ok hok hlc) h

theorem binary_sum_eq_count (l : List Int) (hl : ∀ v ∈ l, v = 0 ∨ v = 1) :
    l.sum = (l.count 1 : Int) := by
  induction l with
  | nil => rfl
  | cons a t ih =>
    have ha := hl a (by simp)
    have ht : ∀ v ∈ t, v = 0 ∨ v = 1 := fun v hv => hl v (by simp [hv])
    rw [List.sum_cons, ih ht, List.count_cons]
    rcases ha with rfl | rfl
    · norm_num
    · simp only [beq_self_eq_true, if_pos]
      push_cast
      omega

theorem grid_ok_counts {n : Nat} {g : Grid} (hok : grid_ok n g)
    (x : Nat) (hx : x < n) :
    row_sum g x = (queen_count_row g x : Int) ∧
    col_sum g x = (queen_count_col g x : Int) := by
  obtain ⟨hlen, hrows, hvals⟩ := hok
  have hxl : x < g.length := by omega
  constructor
  · rw [row_sum, queen_count_row]
    apply binary_sum_eq_count
    intro v hv
    have hmem : g.getD x [] ∈ g := by
      rw [List.getD_eq_getElem?_getD, List.getElem?_eq_getElem hxl]
      exact List.getElem_mem hxl
    exact hvals _ hmem v hv
  · rw [col_sum, queen_count_col]
    apply binary_sum_eq_count
    intro v hv
    rw [List.mem_map] at hv
    obtain ⟨row, hrowmem, rfl⟩ := hv
    have hxr : x < row.length := by rw [hrows row hrowmem]; exact hx
    have hm : row.getD x 0 ∈ row := by
      rw [List.getD_eq_getElem?_getD, List.getElem?_eq_getElem hxr]
      exact List.getElem_mem hxr
    exact hvals row hrowmem _ hm

/-- C4: starting from a fresh board, after any accepted sequence of
left-click operations (queen placements and removals) the board is
still n x n and, for every line index below n, the sum the engine uses
as its running count (`grid[x].sum()` resp. `grid[:, y].sum()`) equals
the number of QUEEN marks in that line. -/
theorem c4_counts_consistent (n : Nat) (zones : List ColorZone) (cm : List Nat)
    (ops : List (Int × Int)) (s : GameState)
    (h : run_left_clicks cm (init_game n zones) ops = some s) :
    s.grid.length = n ∧
    ∀ x, x < n → row_sum s.grid x = (queen_count_row s.grid x : Int) ∧
      col_sum s.grid x = (queen_count_col s.grid x : Int) := by
  have hok := run_left_clicks_grid_ok (init_grid_ok n zones) h
  exact ⟨hok.1, fun x hx => grid_ok_counts hok x hx⟩

theorem c4_counts_consistent_witness :
    run_left_clicks [] (init_game 2 []) [(0, 0)] =
      some (⟨2, [[1, 0], [0, 0]], [], [(none, (0, 0))], 1⟩ : GameState) ∧
    row_sum [[1, 0], [0, 0]] 0 = (queen_count_row [[1, 0], [0, 0]] 0 : Int) ∧
    col_sum [[1, 0], [0, 0]] 0 = (queen_count_col [[1, 0], [0, 0]] 0 : Int) :=
  ⟨by decide,
   ((c4_counts_consistent 2 [] [] [(0, 0)]
      ⟨2, [[1, 0], [0, 0]], [], [(none, (0, 0))], 1⟩ (by decide)).2 0
      (by decide)).1,
   ((c4_counts_consistent 2 [] [] [(0, 0)]
      ⟨2, [[1, 0], [0, 0]], [], [(none, (0, 0))], 1⟩ (by decide)).2 0
      (by decide)).2⟩

end QueensGame
